import Mathlib

/-!
# daptest.Client: a shallow embedding

Model of `service/dap/daptest/client.go` (delve), the synchronous DAP test
client.  The go-dap codec (`dap.WriteProtocolMessage`, `dap.ReadProtocolMessage`)
is an external library: the connection is modelled by the sequence of message
values handed to the writer and by the sequence of results the reader will
yield.  Go `int` is the 64-bit two's-complement integer; arithmetic on it wraps.
-/

set_option linter.dupNamespace false

namespace Daptest

/-! ## Go values -/

/-- Largest value of a Go `int` (64 bits). -/
def maxInt : Int := 2 ^ 63 - 1

/-- Smallest value of a Go `int` (64 bits). -/
def minInt : Int := -(2 ^ 63)

/-- Two's-complement wrap-around of an integer result into the range of `int`. -/
def wrapInt (x : Int) : Int := (x + 2 ^ 63) % 2 ^ 64 - 2 ^ 63

/-- Dynamic values stored in an `interface{}` slot of an argument map. -/
inductive GoValue
  | nil
  | bool (b : Bool)
  | int (i : Int)
  | str (s : String)
  deriving DecidableEq, Repr

/-- The Go type `map[string]interface{}`: `none` is the nil map, `some es` a map
whose entries `es` have pairwise distinct keys. -/
abbrev GoMap := Option (List (String × GoValue))

/-- Assignment `m[k] = v` on the entries of a non-nil map. -/
def setEntry : List (String × GoValue) → String → GoValue → List (String × GoValue)
  | [], k, v => [(k, v)]
  | (k0, v0) :: es, k, v => if k0 = k then (k, v) :: es else (k0, v0) :: setEntry es k v

/-- A map composite literal: a fresh map receiving the listed entries in order. -/
def GoMap.literal (kvs : List (String × GoValue)) : GoMap :=
  some (kvs.foldl (fun es kv => setEntry es kv.1 kv.2) [])

/-- Map indexing `v, ok := m[k]`; indexing a nil map finds nothing. -/
def GoMap.lookup (m : GoMap) (k : String) : Option GoValue :=
  match m with
  | none => none
  | some es => (es.find? (fun kv => kv.1 = k)).map (fun kv => kv.2)

/-- The builtin `len(m)`. -/
def GoMap.len (m : GoMap) : Nat :=
  match m with
  | none => 0
  | some es => es.length

/-- An `error` value, identified by its text. -/
structure GoError where
  text : String
  deriving DecidableEq, Repr

/-! ## `path/filepath` -/

/-- Drop the trailing separators of a path given in reverse. -/
def dropSeparators : List Char → List Char
  | [] => []
  | c :: cs => if c = '/' then dropSeparators cs else c :: cs

/-- The function `filepath.Base` on a slash-separated path. -/
def filepathBase (path : String) : String :=
  if path = "" then "."
  else
    let stripped := dropSeparators path.data.reverse
    let last := (stripped.takeWhile (fun c => c ≠ '/')).reverse
    if last = [] then "/" else String.mk last

/-! ## go-dap message types -/

/-- The struct `dap.ProtocolMessage`. -/
structure ProtocolMessage where
  Seq : Int := 0
  Typ : String := ""
  deriving DecidableEq, Repr

/-- The struct `dap.Request`. -/
structure Request extends ProtocolMessage where
  Command : String := ""
  deriving DecidableEq, Repr

/-- The struct `dap.Event`. -/
structure Event extends ProtocolMessage where
  Event : String := ""
  deriving DecidableEq, Repr

/-- The struct `dap.Response`. -/
structure Response extends ProtocolMessage where
  RequestSeq : Int := 0
  Success : Bool := false
  Command : String := ""
  Message : String := ""
  deriving DecidableEq, Repr

/-- The struct `dap.InitializeRequestArguments`. -/
structure InitializeRequestArguments where
  ClientID : String := ""
  ClientName : String := ""
  AdapterID : String := ""
  Locale : String := ""
  LinesStartAt1 : Bool := false
  ColumnsStartAt1 : Bool := false
  PathFormat : String := ""
  SupportsVariableType : Bool := false
  SupportsVariablePaging : Bool := false
  SupportsRunInTerminalRequest : Bool := false
  SupportsMemoryReferences : Bool := false
  deriving DecidableEq, Repr

/-- The struct `dap.DisconnectArguments`. -/
structure DisconnectArguments where
  Restart : Bool := false
  TerminateDebuggee : Bool := false
  deriving DecidableEq, Repr

/-- The struct `dap.Source` (name, path and reference). -/
structure Source where
  Name : String := ""
  Path : String := ""
  SourceReference : Int := 0
  deriving DecidableEq, Repr

/-- The struct `dap.SourceBreakpoint`. -/
structure SourceBreakpoint where
  Line : Int := 0
  Column : Int := 0
  Condition : String := ""
  HitCondition : String := ""
  LogMessage : String := ""
  deriving DecidableEq, Repr

/-- The struct `dap.SetBreakpointsArguments`. -/
structure SetBreakpointsArguments where
  Source : Source := {}
  Breakpoints : List SourceBreakpoint := []
  Lines : List Int := []
  SourceModified : Bool := false
  deriving DecidableEq, Repr

/-- The struct `dap.SetExceptionBreakpointsArguments`. -/
structure SetExceptionBreakpointsArguments where
  Filters : List String := []
  deriving DecidableEq, Repr

/-- The struct `dap.ContinueArguments`. -/
structure ContinueArguments where
  ThreadId : Int := 0
  deriving DecidableEq, Repr

/-- The struct `dap.StackTraceArguments`. -/
structure StackTraceArguments where
  ThreadId : Int := 0
  StartFrame : Int := 0
  Levels : Int := 0
  deriving DecidableEq, Repr

/-- The struct `dap.Capabilities`, the body of an initialize response. -/
structure Capabilities where
  SupportsConfigurationDoneRequest : Bool := false
  SupportsFunctionBreakpoints : Bool := false
  SupportsConditionalBreakpoints : Bool := false
  SupportsSetVariable : Bool := false
  deriving DecidableEq, Repr

/-- The struct `dap.ErrorMessage`, the payload of an error response body. -/
structure ErrorMessage where
  Id : Int := 0
  Format : String := ""
  deriving DecidableEq, Repr

/-- The struct `dap.StoppedEventBody`. -/
structure StoppedEventBody where
  Reason : String := ""
  ThreadId : Int := 0
  AllThreadsStopped : Bool := false
  deriving DecidableEq, Repr

/-- The struct `dap.Breakpoint`, an entry of a setBreakpoints response body. -/
structure Breakpoint where
  Id : Int := 0
  Verified : Bool := false
  Line : Int := 0
  deriving DecidableEq, Repr

/-- The struct `dap.Thread`. -/
structure Thread where
  Id : Int := 0
  Name : String := ""
  deriving DecidableEq, Repr

/-- The struct `dap.StackFrame`. -/
structure StackFrame where
  Id : Int := 0
  Name : String := ""
  Line : Int := 0
  deriving DecidableEq, Repr

/-- The interface `dap.Message`: one constructor for each concrete go-dap message
type this client builds or expects, and `Other` for every remaining go-dap type
(named by its Go type name). -/
inductive Message
  | Request (r : Request)
  | Event (e : Event)
  | InitializeRequest (r : Request) (Arguments : InitializeRequestArguments)
  | LaunchRequest (r : Request) (Arguments : GoMap)
  | DisconnectRequest (r : Request) (Arguments : DisconnectArguments)
  | SetBreakpointsRequest (r : Request) (Arguments : SetBreakpointsArguments)
  | SetExceptionBreakpointsRequest (r : Request) (Arguments : SetExceptionBreakpointsArguments)
  | ConfigurationDoneRequest (r : Request)
  | ContinueRequest (r : Request) (Arguments : ContinueArguments)
  | ThreadsRequest (r : Request)
  | StackTraceRequest (r : Request) (Arguments : StackTraceArguments)
  | InitializeResponse (r : Response) (Body : Capabilities)
  | InitializedEvent (e : Event)
  | LaunchResponse (r : Response)
  | DisconnectResponse (r : Response)
  | ErrorResponse (r : Response) (Body : ErrorMessage)
  | ContinueResponse (r : Response) (AllThreadsContinued : Bool)
  | TerminatedEvent (e : Event) (Restart : GoValue)
  | SetBreakpointsResponse (r : Response) (Breakpoints : List Breakpoint)
  | SetExceptionBreakpointsResponse (r : Response)
  | StoppedEvent (e : Event) (Body : StoppedEventBody)
  | ConfigurationDoneResponse (r : Response)
  | ThreadsResponse (r : Response) (Threads : List Thread)
  | StackTraceResponse (r : Response) (StackFrames : List StackFrame) (TotalFrames : Int)
  | Other (goType : String) (header : ProtocolMessage)
  deriving DecidableEq, Repr

/-- The dynamic (concrete) type of a `dap.Message` value. -/
inductive Kind
  | Request
  | Event
  | InitializeRequest
  | LaunchRequest
  | DisconnectRequest
  | SetBreakpointsRequest
  | SetExceptionBreakpointsRequest
  | ConfigurationDoneRequest
  | ContinueRequest
  | ThreadsRequest
  | StackTraceRequest
  | InitializeResponse
  | InitializedEvent
  | LaunchResponse
  | DisconnectResponse
  | ErrorResponse
  | ContinueResponse
  | TerminatedEvent
  | SetBreakpointsResponse
  | SetExceptionBreakpointsResponse
  | StoppedEvent
  | ConfigurationDoneResponse
  | ThreadsResponse
  | StackTraceResponse
  | Other (goType : String)
  deriving DecidableEq, Repr

/-- The concrete type behind the interface value. -/
def Message.kind : Message → Kind
  | .Request _ => .Request
  | .Event _ => .Event
  | .InitializeRequest _ _ => .InitializeRequest
  | .LaunchRequest _ _ => .LaunchRequest
  | .DisconnectRequest _ _ => .DisconnectRequest
  | .SetBreakpointsRequest _ _ => .SetBreakpointsRequest
  | .SetExceptionBreakpointsRequest _ _ => .SetExceptionBreakpointsRequest
  | .ConfigurationDoneRequest _ => .ConfigurationDoneRequest
  | .ContinueRequest _ _ => .ContinueRequest
  | .ThreadsRequest _ => .ThreadsRequest
  | .StackTraceRequest _ _ => .StackTraceRequest
  | .InitializeResponse _ _ => .InitializeResponse
  | .InitializedEvent _ => .InitializedEvent
  | .LaunchResponse _ => .LaunchResponse
  | .DisconnectResponse _ => .DisconnectResponse
  | .ErrorResponse _ _ => .ErrorResponse
  | .ContinueResponse _ _ => .ContinueResponse
  | .TerminatedEvent _ _ => .TerminatedEvent
  | .SetBreakpointsResponse _ _ => .SetBreakpointsResponse
  | .SetExceptionBreakpointsResponse _ => .SetExceptionBreakpointsResponse
  | .StoppedEvent _ _ => .StoppedEvent
  | .ConfigurationDoneResponse _ => .ConfigurationDoneResponse
  | .ThreadsResponse _ _ => .ThreadsResponse
  | .StackTraceResponse _ _ _ => .StackTraceResponse
  | .Other goType _ => .Other goType

/-- The embedded `ProtocolMessage` of a message. -/
def Message.header : Message → ProtocolMessage
  | .Request r => r.toProtocolMessage
  | .Event e => e.toProtocolMessage
  | .InitializeRequest r _ => r.toProtocolMessage
  | .LaunchRequest r _ => r.toProtocolMessage
  | .DisconnectRequest r _ => r.toProtocolMessage
  | .SetBreakpointsRequest r _ => r.toProtocolMessage
  | .SetExceptionBreakpointsRequest r _ => r.toProtocolMessage
  | .ConfigurationDoneRequest r => r.toProtocolMessage
  | .ContinueRequest r _ => r.toProtocolMessage
  | .ThreadsRequest r => r.toProtocolMessage
  | .StackTraceRequest r _ => r.toProtocolMessage
  | .InitializeResponse r _ => r.toProtocolMessage
  | .InitializedEvent e => e.toProtocolMessage
  | .LaunchResponse r => r.toProtocolMessage
  | .DisconnectResponse r => r.toProtocolMessage
  | .ErrorResponse r _ => r.toProtocolMessage
  | .ContinueResponse r _ => r.toProtocolMessage
  | .TerminatedEvent e _ => e.toProtocolMessage
  | .SetBreakpointsResponse r _ => r.toProtocolMessage
  | .SetExceptionBreakpointsResponse r => r.toProtocolMessage
  | .StoppedEvent e _ => e.toProtocolMessage
  | .ConfigurationDoneResponse r => r.toProtocolMessage
  | .ThreadsResponse r _ => r.toProtocolMessage
  | .StackTraceResponse r _ _ => r.toProtocolMessage
  | .Other _ h => h

/-- The `seq` field of a message. -/
def Message.seq (m : Message) : Int := m.header.Seq

/-- The `type` field of a message. -/
def Message.typ (m : Message) : String := m.header.Typ

/-- The `command` field of a message built around a `dap.Request`. -/
def Message.command : Message → Option String
  | .Request r => some r.Command
  | .InitializeRequest r _ => some r.Command
  | .LaunchRequest r _ => some r.Command
  | .DisconnectRequest r _ => some r.Command
  | .SetBreakpointsRequest r _ => some r.Command
  | .SetExceptionBreakpointsRequest r _ => some r.Command
  | .ConfigurationDoneRequest r => some r.Command
  | .ContinueRequest r _ => some r.Command
  | .ThreadsRequest r => some r.Command
  | .StackTraceRequest r _ => some r.Command
  | _ => none

/-- The `event` field of a message built around a `dap.Event`. -/
def Message.event : Message → Option String
  | .Event e => some e.Event
  | .InitializedEvent e => some e.Event
  | .TerminatedEvent e _ => some e.Event
  | .StoppedEvent e _ => some e.Event
  | _ => none

/-- The command every go-dap request type stands for: the key under which the
codec registers that type. -/
def Kind.requestCommand : Kind → Option String
  | .InitializeRequest => some "initialize"
  | .LaunchRequest => some "launch"
  | .DisconnectRequest => some "disconnect"
  | .SetBreakpointsRequest => some "setBreakpoints"
  | .SetExceptionBreakpointsRequest => some "setExceptionBreakpoints"
  | .ConfigurationDoneRequest => some "configurationDone"
  | .ContinueRequest => some "continue"
  | .ThreadsRequest => some "threads"
  | .StackTraceRequest => some "stackTrace"
  | _ => none

/-! ## `testing.T` -/

/-- One failure report made through `testing.T`. -/
inductive Failure
  | Error (err : GoError)
  | Errorf (format : String) (arg : Message)
  deriving DecidableEq, Repr

/-- The part of `testing.T` the client uses: the failures reported so far. The
test is marked failed as soon as one is reported; reporting does not stop it. -/
structure T where
  failures : List Failure := []
  deriving DecidableEq, Repr

/-- The method `t.Error(err)`: report and continue. -/
def T.Error (t : T) (err : GoError) : T :=
  { failures := t.failures ++ [Failure.Error err] }

/-- The method `t.Errorf(format, arg)`: report and continue. -/
def T.Errorf (t : T) (format : String) (arg : Message) : T :=
  { failures := t.failures ++ [Failure.Errorf format arg] }

/-- The method `t.Failed()`. -/
def T.Failed (t : T) : Bool := !t.failures.isEmpty

/-! ## The client -/

/-- What one call of `dap.ReadProtocolMessage` returns: the pair `(m, err)`,
each component possibly nil. -/
structure ReadResult where
  msg : Option Message
  err : Option GoError
  deriving DecidableEq, Repr

/-- The struct `Client`. The field `conn` holds the messages written to the
connection so far (oldest first), `reader` the results the buffered reader will
yield on the coming reads (next first), `seq` the request counter. -/
structure Client where
  conn : List Message
  reader : List ReadResult
  seq : Int
  deriving DecidableEq, Repr

/-- The function `NewClient`: dial the address and start counting at 1. The
dialer yields the inbound stream of the connection, or nothing when dialing
fails, in which case `log.Fatal` ends the process (`none`). -/
def NewClient (dial : String → Option (List ReadResult)) (addr : String) : Option Client :=
  match dial addr with
  | none => none
  | some incoming => some { conn := [], reader := incoming, seq := 1 }

/-- The function `dap.WriteProtocolMessage` on the modelled connection: the message
is handed to the codec and joins the written ones. The error it may return is
dropped by `send`, the only caller. -/
def WriteProtocolMessage (conn : List Message) (message : Message) : List Message :=
  conn ++ [message]

/-- The function `dap.ReadProtocolMessage` on the modelled reader: it yields the
next pending result, and blocks (`none`) while there is none. -/
def ReadProtocolMessage (reader : List ReadResult) : Option (ReadResult × List ReadResult) :=
  match reader with
  | [] => none
  | r :: rest => some (r, rest)

/-- The method `Client.send`. -/
def Client.send (c : Client) (request : Message) : Client :=
  { c with conn := WriteProtocolMessage c.conn request }

/-- The method `Client.ReadMessage`. -/
def Client.ReadMessage (c : Client) : Option (ReadResult × Client) :=
  match ReadProtocolMessage c.reader with
  | none => none
  | some (r, rest) => some (r, { c with reader := rest })

/-- The method `Client.expectReadProtocolMessage`. -/
def Client.expectReadProtocolMessage (c : Client) (t : T) : Option (Option Message × T × Client) :=
  match ReadProtocolMessage c.reader with
  | none => none
  | some (r, rest) =>
    let t1 := match r.err with
      | some err => t.Error err
      | none => t
    some (r.msg, t1, { c with reader := rest })

/-- The run-time panic of a failed type assertion `m.(*dap.X)`: the dynamic type
found (`none` for a nil interface value) and the type asserted. -/
structure TypeAssertionError where
  concrete : Option Kind
  asserted : Kind
  deriving DecidableEq, Repr

/-- How a call of an accessor ends: it returns the narrowed message, or it
panics in the type assertion. -/
inductive Result
  | returned (m : Message)
  | panicked (e : TypeAssertionError)
  deriving DecidableEq, Repr

/-- The state at the end of a call of an accessor, and how the call ended. -/
structure Outcome where
  client : Client
  t : T
  result : Result
  deriving DecidableEq, Repr

/-- The single-value type assertion `m.(*dap.X)` for the type `X` of kind
`asserted`. -/
def typeAssert (asserted : Kind) (m : Option Message) : Result :=
  match m with
  | none => .panicked { concrete := none, asserted := asserted }
  | some v =>
    if v.kind = asserted then .returned v
    else .panicked { concrete := some v.kind, asserted := asserted }

/-- The body shared by the accessors that only read and narrow:
`return c.expectReadProtocolMessage(t).(*dap.X)`. -/
def Client.expectKind (c : Client) (t : T) (asserted : Kind) : Option Outcome :=
  match c.expectReadProtocolMessage t with
  | none => none
  | some (m, t1, c1) => some { client := c1, t := t1, result := typeAssert asserted m }

def Client.ExpectDisconnectResponse (c : Client) (t : T) : Option Outcome :=
  c.expectKind t .DisconnectResponse

def Client.ExpectErrorResponse (c : Client) (t : T) : Option Outcome :=
  c.expectKind t .ErrorResponse

def Client.ExpectContinueResponse (c : Client) (t : T) : Option Outcome :=
  c.expectKind t .ContinueResponse

def Client.ExpectTerminatedEvent (c : Client) (t : T) : Option Outcome :=
  c.expectKind t .TerminatedEvent

/-- The field `Body.SupportsConfigurationDoneRequest` of a narrowed initialize
response. -/
def supportsConfigurationDoneRequest : Message → Bool
  | .InitializeResponse _ body => body.SupportsConfigurationDoneRequest
  | _ => false

def Client.ExpectInitializeResponse (c : Client) (t : T) : Option Outcome :=
  match c.expectReadProtocolMessage t with
  | none => none
  | some (m, t1, c1) =>
    match typeAssert .InitializeResponse m with
    | .panicked e => some { client := c1, t := t1, result := .panicked e }
    | .returned initResp =>
      let t2 :=
        if !supportsConfigurationDoneRequest initResp then
          t1.Errorf "got %#v, want SupportsConfigurationDoneRequest=true" initResp
        else t1
      some { client := c1, t := t2, result := .returned initResp }

def Client.ExpectInitializedEvent (c : Client) (t : T) : Option Outcome :=
  c.expectKind t .InitializedEvent

def Client.ExpectLaunchResponse (c : Client) (t : T) : Option Outcome :=
  c.expectKind t .LaunchResponse

def Client.ExpectSetExceptionBreakpointsResponse (c : Client) (t : T) : Option Outcome :=
  c.expectKind t .SetExceptionBreakpointsResponse

def Client.ExpectSetBreakpointsResponse (c : Client) (t : T) : Option Outcome :=
  c.expectKind t .SetBreakpointsResponse

def Client.ExpectStoppedEvent (c : Client) (t : T) : Option Outcome :=
  c.expectKind t .StoppedEvent

def Client.ExpectConfigurationDoneResponse (c : Client) (t : T) : Option Outcome :=
  c.expectKind t .ConfigurationDoneResponse

def Client.ExpectThreadsResponse (c : Client) (t : T) : Option Outcome :=
  c.expectKind t .ThreadsResponse

def Client.ExpectStackTraceResponse (c : Client) (t : T) : Option Outcome :=
  c.expectKind t .StackTraceResponse

/-- The method `Client.newRequest`: the request stamped with the counter, and
the client with the counter advanced by `c.seq++`. -/
def Client.newRequest (c : Client) (command : String) : Request × Client :=
  ({ Seq := c.seq, Typ := "request", Command := command },
   { c with seq := wrapInt (c.seq + 1) })

def Client.InitializeRequest (c : Client) : Client :=
  let (request, c1) := c.newRequest "initialize"
  c1.send (.InitializeRequest request
    { AdapterID := "go"
      PathFormat := "path"
      LinesStartAt1 := true
      ColumnsStartAt1 := true
      SupportsVariableType := true
      SupportsVariablePaging := true
      SupportsRunInTerminalRequest := true
      Locale := "en-us" })

def Client.LaunchRequest (c : Client) (mode : String) (program : String) (stopOnEntry : Bool) :
    Client :=
  let (request, c1) := c.newRequest "launch"
  c1.send (.LaunchRequest request
    (GoMap.literal
      [("request", .str "launch"),
       ("mode", .str mode),
       ("program", .str program),
       ("stopOnEntry", .bool stopOnEntry)]))

def Client.LaunchRequestWithArgs (c : Client) (arguments : GoMap) : Client :=
  let (request, c1) := c.newRequest "launch"
  c1.send (.LaunchRequest request arguments)

def Client.DisconnectRequest (c : Client) : Client :=
  let (request, c1) := c.newRequest "disconnect"
  c1.send (.DisconnectRequest request {})

/-- The assignment `Breakpoints[i].Line = l`. The index is in range wherever the
client makes it. -/
def setLineAt : List SourceBreakpoint → Nat → Int → List SourceBreakpoint
  | [], _, _ => []
  | b :: bs, 0, l => { b with Line := l } :: bs
  | b :: bs, i + 1, l => b :: setLineAt bs i l

/-- The loop `for i, l := range lines { Breakpoints[i].Line = l }`, entered at
index `i` with the lines still to visit. -/
def rangeLines : List Int → Nat → List SourceBreakpoint → List SourceBreakpoint
  | [], _, bps => bps
  | l :: ls, i, bps => rangeLines ls (i + 1) (setLineAt bps i l)

def Client.SetBreakpointsRequest (c : Client) (file : String) (lines : List Int) : Client :=
  let (request, c1) := c.newRequest "setBreakpoints"
  let arguments : SetBreakpointsArguments :=
    { Source := { Name := filepathBase file, Path := file }
      Breakpoints := List.replicate lines.length {} }
  let arguments := { arguments with Breakpoints := rangeLines lines 0 arguments.Breakpoints }
  c1.send (.SetBreakpointsRequest request arguments)

def Client.SetExceptionBreakpointsRequest (c : Client) : Client :=
  let (request, c1) := c.newRequest "setExceptionBreakpoints"
  c1.send (.SetBreakpointsRequest request {})

def Client.ConfigurationDoneRequest (c : Client) : Client :=
  let (request, c1) := c.newRequest "configurationDone"
  c1.send (.ConfigurationDoneRequest request)

def Client.ContinueRequest (c : Client) (thread : Int) : Client :=
  let (request, c1) := c.newRequest "continue"
  c1.send (.ContinueRequest request { ThreadId := thread })

def Client.ThreadsRequest (c : Client) : Client :=
  let (request, c1) := c.newRequest "threads"
  c1.send (.ThreadsRequest request)

def Client.StackTraceRequest (c : Client) : Client :=
  let (request, c1) := c.newRequest "stackTrace"
  c1.send (.StackTraceRequest request {})

def Client.UnknownRequest (c : Client) : Client :=
  let (request, c1) := c.newRequest "unknown"
  c1.send (.Request request)

def Client.UnknownEvent (c : Client) : Client :=
  c.send (.Event { Typ := "event", Seq := -1, Event := "unknown" })

def Client.KnownEvent (c : Client) : Client :=
  c.send (.Event { Typ := "event", Seq := -1, Event := "terminated" })

/-! ## Calls, for statements over every builder and every accessor -/

/-- One call of a request builder, with its arguments. -/
inductive RequestCall
  | InitializeRequest
  | LaunchRequest (mode : String) (program : String) (stopOnEntry : Bool)
  | LaunchRequestWithArgs (arguments : GoMap)
  | DisconnectRequest
  | SetBreakpointsRequest (file : String) (lines : List Int)
  | SetExceptionBreakpointsRequest
  | ConfigurationDoneRequest
  | ContinueRequest (thread : Int)
  | ThreadsRequest
  | StackTraceRequest
  | UnknownRequest
  deriving DecidableEq, Repr

/-- Make the call on a client. -/
def RequestCall.run : RequestCall → Client → Client
  | .InitializeRequest, c => c.InitializeRequest
  | .LaunchRequest mode program stopOnEntry, c => c.LaunchRequest mode program stopOnEntry
  | .LaunchRequestWithArgs arguments, c => c.LaunchRequestWithArgs arguments
  | .DisconnectRequest, c => c.DisconnectRequest
  | .SetBreakpointsRequest file lines, c => c.SetBreakpointsRequest file lines
  | .SetExceptionBreakpointsRequest, c => c.SetExceptionBreakpointsRequest
  | .ConfigurationDoneRequest, c => c.ConfigurationDoneRequest
  | .ContinueRequest thread, c => c.ContinueRequest thread
  | .ThreadsRequest, c => c.ThreadsRequest
  | .StackTraceRequest, c => c.StackTraceRequest
  | .UnknownRequest, c => c.UnknownRequest

/-- The command name each builder is documented to send. -/
def RequestCall.commandName : RequestCall → String
  | .InitializeRequest => "initialize"
  | .LaunchRequest _ _ _ => "launch"
  | .LaunchRequestWithArgs _ => "launch"
  | .DisconnectRequest => "disconnect"
  | .SetBreakpointsRequest _ _ => "setBreakpoints"
  | .SetExceptionBreakpointsRequest => "setExceptionBreakpoints"
  | .ConfigurationDoneRequest => "configurationDone"
  | .ContinueRequest _ => "continue"
  | .ThreadsRequest => "threads"
  | .StackTraceRequest => "stackTrace"
  | .UnknownRequest => "unknown"

/-- Make the calls one after the other. -/
def runCalls (calls : List RequestCall) (c : Client) : Client :=
  calls.foldl (fun st call => call.run st) c

/-- The expectation accessors. -/
inductive Accessor
  | ExpectDisconnectResponse
  | ExpectErrorResponse
  | ExpectContinueResponse
  | ExpectTerminatedEvent
  | ExpectInitializeResponse
  | ExpectInitializedEvent
  | ExpectLaunchResponse
  | ExpectSetExceptionBreakpointsResponse
  | ExpectSetBreakpointsResponse
  | ExpectStoppedEvent
  | ExpectConfigurationDoneResponse
  | ExpectThreadsResponse
  | ExpectStackTraceResponse
  deriving DecidableEq, Repr

/-- Call the accessor on a client. -/
def Accessor.run : Accessor → Client → T → Option Outcome
  | .ExpectDisconnectResponse, c, t => c.ExpectDisconnectResponse t
  | .ExpectErrorResponse, c, t => c.ExpectErrorResponse t
  | .ExpectContinueResponse, c, t => c.ExpectContinueResponse t
  | .ExpectTerminatedEvent, c, t => c.ExpectTerminatedEvent t
  | .ExpectInitializeResponse, c, t => c.ExpectInitializeResponse t
  | .ExpectInitializedEvent, c, t => c.ExpectInitializedEvent t
  | .ExpectLaunchResponse, c, t => c.ExpectLaunchResponse t
  | .ExpectSetExceptionBreakpointsResponse, c, t => c.ExpectSetExceptionBreakpointsResponse t
  | .ExpectSetBreakpointsResponse, c, t => c.ExpectSetBreakpointsResponse t
  | .ExpectStoppedEvent, c, t => c.ExpectStoppedEvent t
  | .ExpectConfigurationDoneResponse, c, t => c.ExpectConfigurationDoneResponse t
  | .ExpectThreadsResponse, c, t => c.ExpectThreadsResponse t
  | .ExpectStackTraceResponse, c, t => c.ExpectStackTraceResponse t

/-- The kind named by the accessor's return type. -/
def Accessor.expected : Accessor → Kind
  | .ExpectDisconnectResponse => .DisconnectResponse
  | .ExpectErrorResponse => .ErrorResponse
  | .ExpectContinueResponse => .ContinueResponse
  | .ExpectTerminatedEvent => .TerminatedEvent
  | .ExpectInitializeResponse => .InitializeResponse
  | .ExpectInitializedEvent => .InitializedEvent
  | .ExpectLaunchResponse => .LaunchResponse
  | .ExpectSetExceptionBreakpointsResponse => .SetExceptionBreakpointsResponse
  | .ExpectSetBreakpointsResponse => .SetBreakpointsResponse
  | .ExpectStoppedEvent => .StoppedEvent
  | .ExpectConfigurationDoneResponse => .ConfigurationDoneResponse
  | .ExpectThreadsResponse => .ThreadsResponse
  | .ExpectStackTraceResponse => .StackTraceResponse

/-- The test state after the shared read step: the read error, when there is
one, has been reported. -/
def afterRead (t : T) (r : ReadResult) : T :=
  match r.err with
  | some err => t.Error err
  | none => t

/-! ## Auxiliary facts -/

theorem wrapInt_of_range (x : Int) (h1 : minInt ≤ x) (h2 : x ≤ maxInt) : wrapInt x = x := by
  unfold wrapInt
  unfold minInt at h1
  unfold maxInt at h2
  norm_num at h1 h2 ⊢
  omega

theorem wrapInt_succ (x : Int) : wrapInt (wrapInt x + 1) = wrapInt (x + 1) := by
  unfold wrapInt
  norm_num
  omega

/-- Every builder appends one request stamped with the counter and advances the
counter by one wrapping step. -/
theorem run_spec (call : RequestCall) (c : Client) :
    ∃ m, call.run c = { conn := c.conn ++ [m], reader := c.reader, seq := wrapInt (c.seq + 1) }
      ∧ m.typ = "request" ∧ m.seq = c.seq ∧ m.command = some call.commandName := by
  cases call <;> exact ⟨_, rfl, rfl, rfl, rfl⟩

/-- The sequence numbers written by a run of calls, from a counter `wrapInt x`. -/
theorem runCalls_spec (calls : List RequestCall) :
    ∀ (c : Client) (x : Int), c.seq = wrapInt x →
      ∃ ms, (runCalls calls c).conn = c.conn ++ ms
        ∧ ms.map Message.seq = (List.range calls.length).map (fun (i : Nat) => wrapInt (x + (i : Int)))
        ∧ (runCalls calls c).seq = wrapInt (x + (calls.length : Int)) := by
  induction calls with
  | nil =>
    intro c x hx
    exact ⟨[], by simp [runCalls], by simp, by simpa [runCalls] using hx⟩
  | cons call calls ih =>
    intro c x hx
    obtain ⟨m, hrun, -, hseq, -⟩ := run_spec call c
    have hx1 : (call.run c).seq = wrapInt (x + 1) := by
      rw [hrun]
      show wrapInt (c.seq + 1) = wrapInt (x + 1)
      rw [hx, wrapInt_succ]
    obtain ⟨ms, hconn, hmap, hfin⟩ := ih (call.run c) (x + 1) hx1
    refine ⟨m :: ms, ?_, ?_, ?_⟩
    · show (runCalls calls (call.run c)).conn = c.conn ++ m :: ms
      rw [hconn, hrun]
      simp
    · rw [List.length_cons, List.range_succ_eq_map, List.map_cons, List.map_cons, hmap,
        List.map_map]
      congr 1
      · rw [hseq, hx]
        simp
      · apply List.map_congr_left
        intro i _
        simp only [Function.comp]
        congr 1
        push_cast
        ring
    · show (runCalls calls (call.run c)).seq = _
      rw [hfin, List.length_cons]
      congr 1
      push_cast
      ring

/-- The sequence number of the last request of a non-empty run on an unused
connection. -/
theorem runCalls_last (calls : List RequestCall) (c : Client) (x : Int) (n : Nat)
    (hx : c.seq = wrapInt x) (hc : c.conn = []) (hn : calls.length = n + 1) :
    ((runCalls calls c).conn.getLast?).map Message.seq = some (wrapInt (x + (n : Int))) := by
  obtain ⟨ms, hconn, hmap, -⟩ := runCalls_spec calls c x hx
  rw [hconn, hc, List.nil_append, ← List.getLast?_map, hmap, hn, List.range_succ,
    List.map_append, List.map_singleton, List.getLast?_append]
  simp

/-! ## Sequence numbers (C1, C7, C9) -/

/-- C1, as it holds on the code: on a client freshly created by `NewClient`, for
every run of N request-builder calls with 1 ≤ N ≤ 2^63 - 1 (the largest `int`),
exactly N messages are written, the k-th of them carries seq k for every k up
to N (so the N-th carries N), and the sequence numbers written are strictly
increasing and pairwise distinct. -/
theorem C1_nth_request_seq (dial : String → Option (List ReadResult)) (addr : String)
    (c : Client) (calls : List RequestCall)
    (hnew : NewClient dial addr = some c) (hne : calls ≠ [])
    (hlen : (calls.length : Int) ≤ maxInt) :
    (runCalls calls c).conn.length = calls.length
      ∧ (runCalls calls c).conn.map Message.seq
          = (List.range calls.length).map (fun (k : Nat) => (k : Int) + 1)
      ∧ ((runCalls calls c).conn.getLast?).map Message.seq = some (calls.length : Int)
      ∧ List.Pairwise (fun a b => a < b) ((runCalls calls c).conn.map Message.seq)
      ∧ ((runCalls calls c).conn.map Message.seq).Nodup := by
  have hc : c.conn = [] ∧ c.seq = 1 := by
    unfold NewClient at hnew
    cases hd : dial addr with
    | none => simp [hd] at hnew
    | some incoming =>
      simp only [hd, Option.some.injEq] at hnew
      subst hnew
      exact ⟨rfl, rfl⟩
  have hx : c.seq = wrapInt 1 := by rw [hc.2]; decide
  obtain ⟨ms, hconn, hmap, -⟩ := runCalls_spec calls c 1 hx
  rw [hc.1, List.nil_append] at hconn
  have hseqs : (runCalls calls c).conn.map Message.seq
      = (List.range calls.length).map (fun (k : Nat) => (k : Int) + 1) := by
    rw [hconn, hmap]
    apply List.map_congr_left
    intro k hk
    have hk1 : k < calls.length := List.mem_range.mp hk
    have h1 : wrapInt (1 + (k : Int)) = 1 + (k : Int) := by
      apply wrapInt_of_range
      · unfold minInt
        norm_num
        omega
      · omega
    show wrapInt (1 + (k : Int)) = (k : Int) + 1
    rw [h1]
    ring
  have hpair : List.Pairwise (fun a b => a < b) ((runCalls calls c).conn.map Message.seq) := by
    rw [hseqs, List.pairwise_map]
    exact (List.pairwise_lt_range calls.length).imp (fun h => by omega)
  refine ⟨?_, hseqs, ?_, hpair, ?_⟩
  · have h := congrArg List.length hseqs
    simpa using h
  · obtain ⟨n, hn⟩ : ∃ n, calls.length = n + 1 := by
      cases calls with
      | nil => exact absurd rfl hne
      | cons a l => exact ⟨l.length, rfl⟩
    rw [runCalls_last calls c 1 n hx hc.1 hn, hn]
    have h1 : wrapInt (1 + (n : Int)) = 1 + (n : Int) := by
      apply wrapInt_of_range
      · unfold minInt
        norm_num
        omega
      · rw [hn] at hlen
        push_cast at hlen
        omega
    rw [h1, Nat.cast_add, Nat.cast_one, add_comm]
  · exact hpair.imp (fun h => ne_of_lt h)

/-- Witness of `C1_nth_request_seq`: an initialize, a launch and a disconnect
request on a fresh client carry 1, 2 and 3. -/
theorem C1_nth_request_seq_witness :
    (runCalls [.InitializeRequest, .LaunchRequest "exec" "/bin/prog" false, .DisconnectRequest]
        { conn := [], reader := [], seq := 1 }).conn.map Message.seq = [1, 2, 3] := by
  have h := (C1_nth_request_seq (fun _ => some []) "127.0.0.1:54321"
    { conn := [], reader := [], seq := 1 }
    [.InitializeRequest, .LaunchRequest "exec" "/bin/prog" false, .DisconnectRequest]
    rfl (by simp) (by decide)).2.1
  rw [h]
  decide

/-- C1 fails as stated (for every N): on a fresh client, the request written by
the 2^63-th call does not carry 2^63 but -2^63, the counter having wrapped. -/
theorem C1_counterexample :
    (NewClient (fun _ => some []) "127.0.0.1:54321").map
        (fun c => ((runCalls (List.replicate 9223372036854775808 RequestCall.ThreadsRequest)
          c).conn.getLast?).map Message.seq)
      = some (some (-9223372036854775808)) := by
  show some (((runCalls (List.replicate 9223372036854775808 RequestCall.ThreadsRequest)
          { conn := [], reader := [], seq := 1 }).conn.getLast?).map Message.seq) = _
  rw [runCalls_last _ { conn := [], reader := [], seq := 1 } 1 9223372036854775807
    (by decide) rfl (by rw [List.length_replicate])]
  decide

/-- C7, as it holds on the code: one call of any request builder writes exactly
one message, of type "request", stamped with the counter value s and with the
command name of the builder, and leaves the inbound stream alone; the counter
becomes s + 1 wrapped to the range of `int`, which is exactly s + 1 whenever s
is below the largest `int`. -/
theorem C7_request_builder (call : RequestCall) (c : Client) :
    ∃ m, (call.run c).conn = c.conn ++ [m]
      ∧ m.typ = "request" ∧ m.seq = c.seq ∧ m.command = some call.commandName
      ∧ (call.run c).reader = c.reader
      ∧ (call.run c).seq = wrapInt (c.seq + 1)
      ∧ (minInt ≤ c.seq → c.seq < maxInt → (call.run c).seq = c.seq + 1) := by
  obtain ⟨m, hrun, htyp, hseq, hcmd⟩ := run_spec call c
  refine ⟨m, by rw [hrun], htyp, hseq, hcmd, by rw [hrun], by rw [hrun], ?_⟩
  intro hmin hmax
  rw [hrun]
  show wrapInt (c.seq + 1) = c.seq + 1
  apply wrapInt_of_range
  · omega
  · omega

/-- Witness of `C7_request_builder`: a continue request at counter 7. -/
theorem C7_request_builder_witness :
    ∃ m, ((RequestCall.ContinueRequest 1).run { conn := [], reader := [], seq := 7 }).conn = [m]
      ∧ m.typ = "request" ∧ m.seq = 7 ∧ m.command = some "continue"
      ∧ ((RequestCall.ContinueRequest 1).run { conn := [], reader := [], seq := 7 }).seq = 8 := by
  obtain ⟨m, h1, h2, h3, h4, -, -, h7⟩ :=
    C7_request_builder (.ContinueRequest 1) { conn := [], reader := [], seq := 7 }
  exact ⟨m, h1, h2, h3, h4, h7 (by decide) (by decide)⟩

/-- C7 fails as stated (for every counter value s): at the largest `int` the
request is stamped with s, but the counter is left at -2^63, not at s + 1. -/
theorem C7_counterexample :
    (Client.ThreadsRequest { conn := [], reader := [], seq := 9223372036854775807 }).seq
        = -9223372036854775808
      ∧ (Client.ThreadsRequest { conn := [], reader := [], seq := 9223372036854775807 }).seq
        ≠ 9223372036854775807 + 1 := by
  decide

/-- C9: from a counter value s, `UnknownEvent` and `KnownEvent` each write
exactly one message, of type "event", with seq -1 and event name "unknown"
respectively "terminated"; the counter is still s afterwards, the inbound
stream is untouched, and the request sent next by any builder carries s. -/
theorem C9_event_injectors (c : Client) :
    (∃ m, c.UnknownEvent = { c with conn := c.conn ++ [m] }
        ∧ m.typ = "event" ∧ m.seq = -1 ∧ m.event = some "unknown"
        ∧ c.UnknownEvent.seq = c.seq
        ∧ ∀ call : RequestCall, ∃ m1,
            (call.run c.UnknownEvent).conn = c.conn ++ [m, m1] ∧ m1.seq = c.seq)
      ∧ (∃ m, c.KnownEvent = { c with conn := c.conn ++ [m] }
        ∧ m.typ = "event" ∧ m.seq = -1 ∧ m.event = some "terminated"
        ∧ c.KnownEvent.seq = c.seq
        ∧ ∀ call : RequestCall, ∃ m1,
            (call.run c.KnownEvent).conn = c.conn ++ [m, m1] ∧ m1.seq = c.seq) := by
  refine ⟨⟨_, rfl, rfl, rfl, rfl, rfl, ?_⟩, ⟨_, rfl, rfl, rfl, rfl, rfl, ?_⟩⟩
  · intro call
    obtain ⟨m1, hrun, -, hseq, -⟩ := run_spec call c.UnknownEvent
    refine ⟨m1, ?_, hseq⟩
    rw [hrun]
    simp [Client.UnknownEvent, Client.send, WriteProtocolMessage]
  · intro call
    obtain ⟨m1, hrun, -, hseq, -⟩ := run_spec call c.KnownEvent
    refine ⟨m1, ?_, hseq⟩
    rw [hrun]
    simp [Client.KnownEvent, Client.send, WriteProtocolMessage]

/-! ## Request payloads (C2, C8, C10) -/

theorem setLineAt_append (pre : List SourceBreakpoint) (b : SourceBreakpoint)
    (rest : List SourceBreakpoint) (l : Int) :
    setLineAt (pre ++ b :: rest) pre.length l = pre ++ { b with Line := l } :: rest := by
  induction pre with
  | nil => rfl
  | cons p pre ih =>
    show p :: setLineAt (pre ++ b :: rest) pre.length l = _
    rw [ih]
    rfl

/-- The loop fills the zero-valued entries from index `pre.length` on, one line
each, in order. -/
theorem rangeLines_append (lines : List Int) :
    ∀ pre : List SourceBreakpoint,
      rangeLines lines pre.length
          (pre ++ List.replicate lines.length ({} : SourceBreakpoint))
        = pre ++ lines.map (fun l => ({ Line := l } : SourceBreakpoint)) := by
  induction lines with
  | nil => intro pre; simp [rangeLines]
  | cons l ls ih =>
    intro pre
    show rangeLines ls (pre.length + 1)
        (setLineAt (pre ++ ({} : SourceBreakpoint) :: List.replicate ls.length {})
          pre.length l) = _
    rw [setLineAt_append]
    have h := ih (pre ++ [{ Line := l }])
    simp only [List.length_append, List.length_singleton, List.append_assoc,
      List.singleton_append] at h
    rw [h]
    simp

/-- C2: for every file and every list of lines, the message written by
`SetBreakpointsRequest(file, lines)` is a setBreakpoints request whose
`Breakpoints` list has as many entries as there are lines, the i-th entry
having the i-th line as its `Line`, in input order. -/
theorem C2_breakpoints_follow_lines (c : Client) (file : String) (lines : List Int) :
    ∃ r args, (c.SetBreakpointsRequest file lines).conn
          = c.conn ++ [Message.SetBreakpointsRequest r args]
      ∧ args.Breakpoints.length = lines.length
      ∧ args.Breakpoints.map (fun b => b.Line) = lines
      ∧ ∀ i : Nat, (args.Breakpoints[i]?).map (fun b => b.Line) = lines[i]? := by
  have hloop : rangeLines lines 0 (List.replicate lines.length {})
      = lines.map (fun l => ({ Line := l } : SourceBreakpoint)) := by
    simpa using rangeLines_append lines []
  have hmap : (rangeLines lines 0 (List.replicate lines.length {})).map (fun b => b.Line)
      = lines := by
    rw [hloop, List.map_map]
    simp [Function.comp_def]
  refine ⟨_, _, rfl, ?_, hmap, ?_⟩
  · show (rangeLines lines 0 (List.replicate lines.length {})).length = lines.length
    rw [hloop, List.length_map]
  · intro i
    show ((rangeLines lines 0 (List.replicate lines.length {}))[i]?).map (fun b => b.Line) = _
    rw [← List.getElem?_map, hmap]

/-- C8, evaluated on the code: the one message `SetExceptionBreakpointsRequest`
writes carries the command "setExceptionBreakpoints" but is a value of the
setBreakpoints-request type (with zero-valued setBreakpoints arguments), so its
kind is not the setExceptionBreakpoints-request kind and the command that kind
stands for differs from the command field. -/
theorem C8_kind_and_command_disagree (c : Client) :
    ∃ m, (c.SetExceptionBreakpointsRequest).conn = c.conn ++ [m]
      ∧ m.command = some "setExceptionBreakpoints"
      ∧ m.kind = Kind.SetBreakpointsRequest
      ∧ m.kind ≠ Kind.SetExceptionBreakpointsRequest
      ∧ m.kind.requestCommand = some "setBreakpoints"
      ∧ m.kind.requestCommand ≠ m.command
      ∧ m = Message.SetBreakpointsRequest
          { Seq := c.seq, Typ := "request", Command := "setExceptionBreakpoints" } {} := by
  refine ⟨_, rfl, rfl, rfl, ?_, rfl, ?_, rfl⟩
  · simp [Message.kind]
  · simp [Message.kind, Kind.requestCommand, Message.command]

/-- C10: `LaunchRequest(mode, program, stopOnEntry)` writes a launch request
whose arguments map has exactly the four keys "request", "mode", "program" and
"stopOnEntry", bound to "launch", the mode, the program and the flag as given;
`LaunchRequestWithArgs(a)` writes a launch request whose arguments are `a`
itself, the nil map and the empty map included. -/
theorem C10_launch_arguments_verbatim (c : Client) (mode program : String)
    (stopOnEntry : Bool) (a : GoMap) :
    (∃ r args, (c.LaunchRequest mode program stopOnEntry).conn
          = c.conn ++ [Message.LaunchRequest r args]
        ∧ r.Command = "launch"
        ∧ args.len = 4
        ∧ args.lookup "request" = some (GoValue.str "launch")
        ∧ args.lookup "mode" = some (GoValue.str mode)
        ∧ args.lookup "program" = some (GoValue.str program)
        ∧ args.lookup "stopOnEntry" = some (GoValue.bool stopOnEntry)
        ∧ ∀ k : String, args.lookup k ≠ none ↔
            (k = "request" ∨ k = "mode" ∨ k = "program" ∨ k = "stopOnEntry"))
      ∧ (∃ r, (c.LaunchRequestWithArgs a).conn = c.conn ++ [Message.LaunchRequest r a]
        ∧ r.Command = "launch") := by
  have hlit : GoMap.literal
      [("request", GoValue.str "launch"), ("mode", GoValue.str mode),
       ("program", GoValue.str program), ("stopOnEntry", GoValue.bool stopOnEntry)]
      = some [("request", GoValue.str "launch"), ("mode", GoValue.str mode),
       ("program", GoValue.str program), ("stopOnEntry", GoValue.bool stopOnEntry)] := by
    simp [GoMap.literal, setEntry]
  refine ⟨⟨_, _, rfl, rfl, ?_, ?_, ?_, ?_, ?_, ?_⟩, ⟨_, rfl, rfl⟩⟩
  · rw [hlit]; rfl
  · rw [hlit]; simp [GoMap.lookup, List.find?]
  · rw [hlit]; simp [GoMap.lookup, List.find?]
  · rw [hlit]; simp [GoMap.lookup, List.find?]
  · rw [hlit]; simp [GoMap.lookup, List.find?]
  · intro k
    rw [hlit]
    simp only [GoMap.lookup, List.find?]
    by_cases h1 : "request" = k
    · subst h1; simp
    by_cases h2 : "mode" = k
    · subst h2; simp
    by_cases h3 : "program" = k
    · subst h3; simp
    by_cases h4 : "stopOnEntry" = k
    · subst h4; simp
    have h5 : ¬ (k = "request" ∨ k = "mode" ∨ k = "program" ∨ k = "stopOnEntry") := by
      rintro (h | h | h | h)
      · exact h1 h.symm
      · exact h2 h.symm
      · exact h3 h.symm
      · exact h4 h.symm
    simp [h1, h2, h3, h4, h5]

/-! ## Expectation accessors (C3, C4, C5, C6) -/

/-- What every accessor does on a stream with a pending read result: it takes
that one result, narrows the message to the expected kind, and has reported
the read error if any; only the initialize accessor may report once more. -/
theorem accessor_run_cons (a : Accessor) (conn : List Message) (r : ReadResult)
    (rest : List ReadResult) (seq : Int) (t : T) :
    ∃ tt, a.run { conn := conn, reader := r :: rest, seq := seq } t
          = some { client := { conn := conn, reader := rest, seq := seq }, t := tt,
                   result := typeAssert a.expected r.msg }
      ∧ (tt = afterRead t r
          ∨ (a = Accessor.ExpectInitializeResponse
              ∧ ∃ m, r.msg = some m ∧ m.kind = Kind.InitializeResponse
                ∧ supportsConfigurationDoneRequest m = false
                ∧ tt = (afterRead t r).Errorf
                    "got %#v, want SupportsConfigurationDoneRequest=true" m)) := by
  cases a
  case ExpectInitializeResponse =>
    cases hm : r.msg with
    | none =>
      refine ⟨afterRead t r, ?_, Or.inl rfl⟩
      simp [Accessor.run, Client.ExpectInitializeResponse, Client.expectReadProtocolMessage,
        ReadProtocolMessage, typeAssert, hm, afterRead, Accessor.expected]
    | some m =>
      by_cases hk : m.kind = Kind.InitializeResponse
      · cases hs : supportsConfigurationDoneRequest m with
        | true =>
          refine ⟨afterRead t r, ?_, Or.inl rfl⟩
          simp [Accessor.run, Client.ExpectInitializeResponse,
            Client.expectReadProtocolMessage, ReadProtocolMessage, typeAssert, hm, hk, hs,
            afterRead, Accessor.expected]
        | false =>
          refine ⟨(afterRead t r).Errorf
            "got %#v, want SupportsConfigurationDoneRequest=true" m, ?_,
            Or.inr ⟨rfl, m, rfl, hk, hs, rfl⟩⟩
          simp [Accessor.run, Client.ExpectInitializeResponse,
            Client.expectReadProtocolMessage, ReadProtocolMessage, typeAssert, hm, hk, hs,
            afterRead, Accessor.expected]
      · refine ⟨afterRead t r, ?_, Or.inl rfl⟩
        simp [Accessor.run, Client.ExpectInitializeResponse, Client.expectReadProtocolMessage,
          ReadProtocolMessage, typeAssert, hm, hk, afterRead, Accessor.expected]
  all_goals exact ⟨afterRead t r, rfl, Or.inl rfl⟩

theorem typeAssert_returned_iff (k : Kind) (om : Option Message) (v : Message) :
    typeAssert k om = Result.returned v ↔ (om = some v ∧ v.kind = k) := by
  cases om with
  | none => simp [typeAssert]
  | some m =>
    by_cases hk : m.kind = k
    · simp only [typeAssert, hk, if_true, Result.returned.injEq, Option.some.injEq]
      constructor
      · intro h; subst h; exact ⟨rfl, hk⟩
      · intro h; exact h.1
    · simp only [typeAssert, hk, if_false, Option.some.injEq]
      constructor
      · intro h; cases h
      · intro h; exact absurd (h.1 ▸ h.2) hk

theorem afterRead_error_length (t : T) (om : Option Message) (e : GoError) (tt : T) (a : Accessor)
    (h : tt = afterRead t { msg := om, err := some e }
          ∨ (a = Accessor.ExpectInitializeResponse
              ∧ ∃ m, om = some m ∧ m.kind = Kind.InitializeResponse
                ∧ supportsConfigurationDoneRequest m = false
                ∧ tt = (afterRead t { msg := om, err := some e }).Errorf
                    "got %#v, want SupportsConfigurationDoneRequest=true" m)) :
    Failure.Error e ∈ tt.failures ∧ t.failures.length < tt.failures.length := by
  rcases h with h | ⟨-, m, -, -, -, h⟩
  · subst h
    simp [afterRead, T.Error]
  · subst h
    simp [afterRead, T.Error, T.Errorf]

/-- C3, as it holds on the code: when the read yields an error, every accessor
takes that one result off the stream and reports the error as a test failure
without stopping the test, then applies its type assertion to the message that
came with the error. With no message (nil) the accessor panics in the type
assertion instead of returning a zero result; it returns normally exactly when
the codec delivered, together with the error, a message of the expected kind,
and then returns that message. -/
theorem C3_read_error_outcome (a : Accessor) (conn : List Message) (rmsg : Option Message)
    (e : GoError) (rest : List ReadResult) (seq : Int) (t : T) :
    ∃ o, a.run { conn := conn, reader := { msg := rmsg, err := some e } :: rest, seq := seq } t
          = some o
      ∧ o.client = { conn := conn, reader := rest, seq := seq }
      ∧ Failure.Error e ∈ o.t.failures
      ∧ o.t.Failed = true
      ∧ (rmsg = none →
          o.t = t.Error e
            ∧ o.result = Result.panicked { concrete := none, asserted := a.expected })
      ∧ (∀ m, o.result = Result.returned m ↔ (rmsg = some m ∧ m.kind = a.expected)) := by
  obtain ⟨tt, hrun, htt⟩ :=
    accessor_run_cons a conn { msg := rmsg, err := some e } rest seq t
  obtain ⟨hmem, hlen⟩ := afterRead_error_length t rmsg e tt a htt
  refine ⟨_, hrun, rfl, hmem, ?_, ?_, ?_⟩
  · show (!tt.failures.isEmpty) = true
    cases hf : tt.failures with
    | nil => rw [hf] at hmem; cases hmem
    | cons x xs => rfl
  · intro hnone
    subst hnone
    refine ⟨?_, rfl⟩
    rcases htt with h | ⟨-, m, hm, -⟩
    · exact h
    · cases hm
  · intro m
    exact typeAssert_returned_iff a.expected rmsg m

/-- Witness of `C3_read_error_outcome`: a disconnect-response accessor reading
an end-of-file error that comes without a message. -/
theorem C3_read_error_outcome_witness :
    ∃ o, Accessor.ExpectDisconnectResponse.run
          { conn := [], reader := [{ msg := none, err := some { text := "EOF" } }], seq := 1 } {}
          = some o
      ∧ o.t = T.Error {} { text := "EOF" }
      ∧ o.result = Result.panicked
          { concrete := none, asserted := Kind.DisconnectResponse } := by
  obtain ⟨o, h1, -, -, -, h5, -⟩ :=
    C3_read_error_outcome Accessor.ExpectDisconnectResponse [] none { text := "EOF" } [] 1 {}
  exact ⟨o, h1, (h5 rfl).1, (h5 rfl).2⟩

/-- C3 fails as stated: on a read error that comes without a message,
`ExpectDisconnectResponse` reports the failure and then panics in its type
assertion on the nil message; it does not return. -/
theorem C3_counterexample :
    Client.ExpectDisconnectResponse
        { conn := [], reader := [{ msg := none, err := some { text := "EOF" } }], seq := 1 }
        { failures := [] }
      = some { client := { conn := [], reader := [], seq := 1 },
               t := { failures := [Failure.Error { text := "EOF" }] },
               result := Result.panicked
                 { concrete := none, asserted := Kind.DisconnectResponse } } := by
  decide

/-- C4: on a successfully decoded message m, every accessor returns exactly
when m is of the expected kind, and what it returns is m itself; when m is of
another kind it does not return but panics with a type-assertion error naming
the kind of m, and reports no test failure. That outcome differs from the
outcome of any read or decode error, which always reports a failure (and, when
the error comes without a message, panics with an error naming no kind). -/
theorem C4_kind_narrowing (a : Accessor) (conn : List Message) (m : Message)
    (rest : List ReadResult) (seq : Int) (t : T) :
    ∃ o, a.run { conn := conn, reader := { msg := some m, err := none } :: rest, seq := seq } t
          = some o
      ∧ ((∃ v, o.result = Result.returned v) ↔ m.kind = a.expected)
      ∧ (∀ v, o.result = Result.returned v → v = m)
      ∧ (m.kind ≠ a.expected →
          o.result = Result.panicked { concrete := some m.kind, asserted := a.expected }
            ∧ o.t = t
            ∧ ∀ (conn2 : List Message) (rmsg2 : Option Message) (e2 : GoError)
                (rest2 : List ReadResult) (seq2 : Int) (o2 : Outcome),
                a.run { conn := conn2, reader := { msg := rmsg2, err := some e2 } :: rest2,
                        seq := seq2 } t = some o2 →
                  o.t ≠ o2.t
                    ∧ (o.t, o.result) ≠ (o2.t, o2.result)
                    ∧ (rmsg2 = none → o.result ≠ o2.result)) := by
  obtain ⟨tt, hrun, htt⟩ :=
    accessor_run_cons a conn { msg := some m, err := none } rest seq t
  refine ⟨_, hrun, ?_, ?_, ?_⟩
  · show (∃ v, typeAssert a.expected (some m) = Result.returned v) ↔ _
    constructor
    · rintro ⟨v, hv⟩
      obtain ⟨h1, h2⟩ := (typeAssert_returned_iff _ _ _).mp hv
      cases h1
      exact h2
    · intro hk
      exact ⟨m, (typeAssert_returned_iff _ _ _).mpr ⟨rfl, hk⟩⟩
  · intro v hv
    obtain ⟨h1, -⟩ := (typeAssert_returned_iff a.expected (some m) v).mp hv
    cases h1
    rfl
  · intro hk
    have hres : typeAssert a.expected (some m)
        = Result.panicked { concrete := some m.kind, asserted := a.expected } := by
      simp [typeAssert, hk]
    have ht : tt = t := by
      rcases htt with h | ⟨ha, m1, hm1, hk1, -⟩
      · exact h
      · cases hm1
        subst ha
        exact absurd hk1 hk
    refine ⟨hres, ht, ?_⟩
    intro conn2 rmsg2 e2 rest2 seq2 o2 hrun2
    obtain ⟨tt2, hrun2b, htt2⟩ :=
      accessor_run_cons a conn2 { msg := rmsg2, err := some e2 } rest2 seq2 t
    rw [hrun2b] at hrun2
    cases hrun2
    obtain ⟨-, hlen⟩ := afterRead_error_length t rmsg2 e2 tt2 a htt2
    have hne : tt ≠ tt2 := by
      intro h
      rw [← h, ht] at hlen
      exact lt_irrefl _ hlen
    refine ⟨hne, ?_, ?_⟩
    · intro h
      exact hne (congrArg Prod.fst h)
    · intro hnone
      subst hnone
      show typeAssert a.expected (some m) ≠ typeAssert a.expected none
      rw [hres]
      simp [typeAssert]

/-- Witness of `C4_kind_narrowing`: the launch-response accessor reading a
stopped event panics with a wrong-kind error and reports no failure. -/
theorem C4_kind_narrowing_witness :
    ∃ o, Accessor.ExpectLaunchResponse.run
          { conn := [], reader := [{ msg := some (Message.StoppedEvent {} {}), err := none }],
            seq := 1 } {}
          = some o
      ∧ o.result = Result.panicked
          { concrete := some Kind.StoppedEvent, asserted := Kind.LaunchResponse }
      ∧ o.t = {} := by
  obtain ⟨o, h1, -, -, h4⟩ :=
    C4_kind_narrowing Accessor.ExpectLaunchResponse [] (Message.StoppedEvent {} {}) [] 1 {}
  have h := h4 (by decide)
  exact ⟨o, h1, h.1, h.2.1⟩

/-- C5: on a decoded initialize response, `ExpectInitializeResponse` returns
that response, and reports a test failure if and only if the flag
`Body.SupportsConfigurationDoneRequest` is false: with the flag true the test
state is unchanged, with the flag false exactly one failure is added. -/
theorem C5_initialize_response_capability (conn : List Message) (r : Response)
    (body : Capabilities) (rest : List ReadResult) (seq : Int) (t : T) :
    ∃ o, Client.ExpectInitializeResponse
          { conn := conn,
            reader := { msg := some (Message.InitializeResponse r body), err := none } :: rest,
            seq := seq } t = some o
      ∧ o.result = Result.returned (Message.InitializeResponse r body)
      ∧ (o.t ≠ t ↔ body.SupportsConfigurationDoneRequest = false)
      ∧ (body.SupportsConfigurationDoneRequest = true → o.t = t)
      ∧ (body.SupportsConfigurationDoneRequest = false →
          o.t = t.Errorf "got %#v, want SupportsConfigurationDoneRequest=true"
            (Message.InitializeResponse r body)) := by
  cases hs : body.SupportsConfigurationDoneRequest with
  | true =>
    refine ⟨{ client := { conn := conn, reader := rest, seq := seq }, t := t,
              result := Result.returned (Message.InitializeResponse r body) }, ?_, rfl, ?_, ?_, ?_⟩
    · simp [Client.ExpectInitializeResponse, Client.expectReadProtocolMessage,
        ReadProtocolMessage, typeAssert, Message.kind, supportsConfigurationDoneRequest, hs]
    · simp
    · intro _; rfl
    · intro h; cases h
  | false =>
    refine ⟨{ client := { conn := conn, reader := rest, seq := seq },
              t := t.Errorf "got %#v, want SupportsConfigurationDoneRequest=true"
                (Message.InitializeResponse r body),
              result := Result.returned (Message.InitializeResponse r body) }, ?_, rfl, ?_, ?_, ?_⟩
    · simp [Client.ExpectInitializeResponse, Client.expectReadProtocolMessage,
        ReadProtocolMessage, typeAssert, Message.kind, supportsConfigurationDoneRequest, hs]
    · simp only [ne_eq, iff_true]
      intro h
      have h2 := congrArg (fun x => x.failures.length) h
      simp [T.Errorf] at h2
    · intro h; cases h
    · intro _; rfl

/-- Witness of `C5_initialize_response_capability`: a response without the
capability makes the accessor report one failure and still return it. -/
theorem C5_initialize_response_capability_witness :
    ∃ o, Client.ExpectInitializeResponse
          { conn := [],
            reader := [{ msg := some (Message.InitializeResponse {} {}), err := none }],
            seq := 1 } {} = some o
      ∧ o.result = Result.returned (Message.InitializeResponse {} {})
      ∧ o.t = T.Errorf {} "got %#v, want SupportsConfigurationDoneRequest=true"
            (Message.InitializeResponse {} {}) := by
  obtain ⟨o, h1, h2, -, -, h5⟩ := C5_initialize_response_capability [] {} {} [] 1 {}
  exact ⟨o, h1, h2, h5 rfl⟩

/-- C6: with the inbound stream a list of pending read results, every accessor
and `ReadMessage` take exactly the head off the list and leave the rest as it
was, whatever the head is (a message of the expected kind, of another kind, or
an error); with nothing pending no call returns, so none reads zero messages. -/
theorem C6_one_read_per_call (conn : List Message) (r : ReadResult)
    (rest : List ReadResult) (seq : Int) (t : T) :
    (∀ a : Accessor, ∃ o,
        a.run { conn := conn, reader := r :: rest, seq := seq } t = some o
          ∧ o.client = { conn := conn, reader := rest, seq := seq })
      ∧ Client.ReadMessage { conn := conn, reader := r :: rest, seq := seq }
          = some (r, { conn := conn, reader := rest, seq := seq })
      ∧ (∀ a : Accessor, a.run { conn := conn, reader := [], seq := seq } t = none)
      ∧ Client.ReadMessage { conn := conn, reader := [], seq := seq } = none := by
  refine ⟨?_, rfl, ?_, rfl⟩
  · intro a
    obtain ⟨tt, hrun, -⟩ := accessor_run_cons a conn r rest seq t
    exact ⟨_, hrun, rfl⟩
  · intro a
    cases a <;> rfl

end Daptest
